import Mathlib

/-!
Shallow embedding of `source/fscMonitor/fscMonitor.c` (Firmware Sanity
Checker).  The process probes the filesystem for a debug-override marker,
classifies the running image as production or not by extracting a token from
a version file through a shell pipeline, and then polls for a valid XConf
response file until either the response is valid or a deadline elapses,
finally reporting the verdict to the platform HAL.

External effects (filesystem probes, `popen`/`fgets` pipeline reads, the
monotonic clock) are modelled as explicit environment records; the HAL calls
and `sleep` calls are modelled as an event trace.  The poll loop is given
explicit fuel and returns `none` when the fuel runs out before the loop
exits (the real loop would still be running at that point).
-/

namespace FscMonitor

/-- `#define FSC_TIMEOUT_VALUE 60*60` — 60 minute timeout value in seconds. -/
def FSC_TIMEOUT_VALUE : Nat := 60 * 60

/-- `const int sampleInterval = 30;` -/
def sampleInterval : Nat := 30

/-- `const int timeOffset = 300;` -/
def timeOffset : Nat := 300

/-- The shell pipeline built by `isProductionImage` when `/fss/gw/version.txt`
exists (line 108 of `fscMonitor.c`). -/
def fssGwVersionCmd : String :=
  "cat /fss/gw/version.txt | grep \x27^imagename\x27 | sed \x27s/imagename[:=]//\x27 | cut -f2 -d\x27_\x27"

/-- The shell pipeline built by `isProductionImage` when `/fss/gw/version.txt`
is absent but `/version.txt` exists (line 110 of `fscMonitor.c`). -/
def rootVersionCmd : String :=
  "cat /version.txt | grep \x27^imagename\x27 | sed \x27s/imagename[:=]//\x27 | cut -f2 -d\x27_\x27"

/-- The shell pipeline built by `validXConfResponse` to extract the
`firmwareFilename` field from `/tmp/response.txt` (line 158). -/
def xconfResponseCmd : String :=
  "cat /tmp/response.txt | grep -o \x27\"firmwareFilename[^,]*\x27 | sed \x27s/\"firmwareFilename\"://\x27"

/-- Environment seen by `isProductionImage`: the outcomes of the two
`doesFileExist` probes, whether `popen` succeeds, and the line `fgets`
returns for a given pipeline command (`""` models `fgets` reading nothing,
leaving the zero-initialised buffer untouched, i.e. `buf[0] == 0`). -/
structure ImageEnv where
  fssGwVersionExists : Bool
  rootVersionExists : Bool
  popenOk : Bool
  pipeRead : String → String

/-- The command-selection branch at lines 106–115 of `isProductionImage`:
prefer `/fss/gw/version.txt`, fall back to `/version.txt`, and report
`none` when neither version file exists. -/
def selectVersionCmd (fssGwVersionExists rootVersionExists : Bool) : Option String :=
  if fssGwVersionExists then some fssGwVersionCmd
  else if rootVersionExists then some rootVersionCmd
  else none

/-- `BOOLEAN isProductionImage()` (lines 97–139): if no version file exists
return `TRUE`; if `popen` fails return `TRUE`; otherwise read one line and
return `TRUE` exactly when `buf[0] != 0 && strcmp(buf, "PROD") == 0`. -/
def isProductionImage (env : ImageEnv) : Bool :=
  match selectVersionCmd env.fssGwVersionExists env.rootVersionExists with
  | none => true
  | some cmd =>
    if env.popenOk then
      let buf := env.pipeRead cmd
      !(buf == "") && (buf == "PROD")
    else
      true

/-- Environment seen by one call of `validXConfResponse`: whether
`/tmp/response.txt` exists, whether `popen` succeeds, and the line `fgets`
returns for the extraction pipeline. -/
structure XconfEnv where
  responseExists : Bool
  popenOk : Bool
  pipeRead : String

/-- `BOOLEAN validXConfResponse()` (lines 144–185): `FALSE` when
`/tmp/response.txt` does not exist or `popen` fails; otherwise `TRUE`
exactly when `buf[0] != 0 && strlen(buf) > 0`. -/
def validXConfResponse (env : XconfEnv) : Bool :=
  if env.responseExists then
    if env.popenOk then
      let buf := env.pipeRead
      !(buf == "") && decide (0 < buf.length)
    else
      false
  else
    false

/-- The pure verdict combinator inside `checkXconfValid` (line 198):
`(bDebugOverride && bValidXconf) || (bIsProduction && bValidXconf)
 || (!bDebugOverride && !bIsProduction)`. -/
def checkXconfValid (bDebugOverride bIsProduction bValidXconf : Bool) : Bool :=
  (bDebugOverride && bValidXconf) || (bIsProduction && bValidXconf) ||
    (!bDebugOverride && !bIsProduction)

/-- Observable events of a run: the two platform HAL calls and the
`sleep(sampleInterval)` calls of the poll loop, in program order. -/
inductive HalEvent
  | setTimeout (seconds : Nat)
  | sleepFor (seconds : Nat)
  | setValid (flag : Bool)
deriving DecidableEq, Repr

/-- True for `platform_hal_SetDeviceCodeImageTimeout` events. -/
def HalEvent.isSetTimeout : HalEvent → Bool
  | .setTimeout _ => true
  | _ => false

/-- True for `sleep` events. -/
def HalEvent.isSleep : HalEvent → Bool
  | .sleepFor _ => true
  | _ => false

/-- True for `platform_hal_SetDeviceCodeImageValid` events. -/
def HalEvent.isSetValid : HalEvent → Bool
  | .setValid _ => true
  | _ => false

/-- Number of `sleep` calls in a trace. -/
def sleepCount (evs : List HalEvent) : Nat :=
  (evs.filter HalEvent.isSleep).length

/-- Environment of a whole run: the `doesFileExist(FSC_DEBUG_FILE)` probe,
the `isProductionImage` environment (both sampled once at startup), and for
every loop iteration `k ≥ 1` the `validXConfResponse` environment and the
elapsed monotonic time (in seconds, as a rational) observed on that
iteration. -/
structure RunEnv where
  debugFileExists : Bool
  imgEnv : ImageEnv
  xconfAt : Nat → XconfEnv
  elapsedAt : Nat → ℚ

/-- The deadline the loop compares elapsed time against (line 277):
`(double)(FSC_TIMEOUT_VALUE - timeOffset)`. -/
def fscDeadline : ℚ := ((FSC_TIMEOUT_VALUE - timeOffset : Nat) : ℚ)

/-- The `while(!bValidImage)` loop of `main` (lines 263–284), running from
iteration index `k` with the given fuel.  Each iteration sleeps, recomputes
the verdict from a fresh `validXConfResponse`, exits with `true` when the
verdict holds, exits with `false` when the verdict fails and the elapsed
time has reached the deadline, and otherwise continues.  Returns the final
`bValidImage` together with the events emitted, or `none` if the fuel runs
out while the loop is still running. -/
def pollLoop (bDebugOverride bIsProduction : Bool) (env : RunEnv) :
    Nat → Nat → Option (Bool × List HalEvent)
  | 0, _ => none
  | fuel + 1, k =>
    let evs := [HalEvent.sleepFor sampleInterval]
    let bValidImage := checkXconfValid bDebugOverride bIsProduction
        (validXConfResponse (env.xconfAt k))
    if bValidImage then
      some (true, evs)
    else if fscDeadline ≤ env.elapsedAt k then
      some (false, evs)
    else
      match pollLoop bDebugOverride bIsProduction env fuel (k + 1) with
      | none => none
      | some (v, rest) => some (v, evs ++ rest)

/-- Result of a terminating run: the final `bValidImage` and the events. -/
structure MainResult where
  bValidImage : Bool
  events : List HalEvent
deriving DecidableEq, Repr

/-- `main` (lines 215–296), log-sink handling elided: call
`platform_hal_SetDeviceCodeImageTimeout(FSC_TIMEOUT_VALUE)`, sample
`bDebugOverride` and `bIsProduction`, short-circuit to `bValidImage = TRUE`
when neither holds (the loop then runs zero times), otherwise run the poll
loop; finally call `platform_hal_SetDeviceCodeImageValid(bValidImage)`. -/
def runMain (env : RunEnv) (fuel : Nat) : Option MainResult :=
  let events0 := [HalEvent.setTimeout FSC_TIMEOUT_VALUE]
  let bDebugOverride := env.debugFileExists
  let bIsProduction := isProductionImage env.imgEnv
  if !bDebugOverride && !bIsProduction then
    some ⟨true, events0 ++ [HalEvent.setValid true]⟩
  else
    match pollLoop bDebugOverride bIsProduction env fuel 1 with
    | none => none
    | some (v, evs) => some ⟨v, events0 ++ evs ++ [HalEvent.setValid v]⟩

theorem fscDeadline_eq : fscDeadline = 3300 := by
  norm_num [fscDeadline, FSC_TIMEOUT_VALUE, timeOffset]

/-- **C1.** For every combination of the three booleans, `checkXconfValid`
returns `remoteValid` when `debugOverride || isProduction` holds and `true`
otherwise — the 8-case truth table of §4.2. -/
theorem checkXconfValid_truth_table :
    ∀ bDebugOverride bIsProduction bValidXconf : Bool,
      checkXconfValid bDebugOverride bIsProduction bValidXconf =
        (if bDebugOverride || bIsProduction then bValidXconf else true) := by
  decide

/-- **C2.** If at startup the debug-override marker is absent and the image
is not classified as production, `main` sets the verdict to `true` at once,
the poll loop performs zero sleep iterations, and `valid = true` is
reported to the HAL. -/
theorem runMain_no_poll (env : RunEnv) (fuel : Nat)
    (hdbg : env.debugFileExists = false)
    (hprod : isProductionImage env.imgEnv = false) :
    runMain env fuel =
      some ⟨true, [HalEvent.setTimeout 3600, HalEvent.setValid true]⟩ ∧
    sleepCount [HalEvent.setTimeout 3600, HalEvent.setValid true] = 0 := by
  constructor
  · simp [runMain, hdbg, hprod, FSC_TIMEOUT_VALUE]
  · rfl

/-- A run environment with no debug override, a debug ("DEV") image, and no
XConf response. -/
def envC2 : RunEnv where
  debugFileExists := false
  imgEnv := ⟨true, false, true, fun _ => "DEV\n"⟩
  xconfAt := fun _ => ⟨false, true, ""⟩
  elapsedAt := fun _ => 0

theorem runMain_no_poll_witness :
    envC2.debugFileExists = false ∧ isProductionImage envC2.imgEnv = false ∧
      (runMain envC2 5 =
        some ⟨true, [HalEvent.setTimeout 3600, HalEvent.setValid true]⟩ ∧
       sleepCount [HalEvent.setTimeout 3600, HalEvent.setValid true] = 0) :=
  ⟨rfl, by decide, runMain_no_poll envC2 5 rfl (by decide)⟩

/-- **C4.** Version-file preference: when `/fss/gw/version.txt` exists the
pipeline targets it (whether or not `/version.txt` exists); the
`/version.txt` pipeline is selected only when `/fss/gw/version.txt` is
absent; and when `/fss/gw/version.txt` exists the classification depends
only on `popen` success and the line extracted from `/fss/gw/version.txt`,
never on `/version.txt`. -/
theorem versionFile_preference :
    (∀ rootExists : Bool, selectVersionCmd true rootExists = some fssGwVersionCmd) ∧
    (∀ f r : Bool, selectVersionCmd f r = some rootVersionCmd → f = false ∧ r = true) ∧
    (∀ e1 e2 : ImageEnv, e1.fssGwVersionExists = true → e2.fssGwVersionExists = true →
      e1.popenOk = e2.popenOk →
      e1.pipeRead fssGwVersionCmd = e2.pipeRead fssGwVersionCmd →
      isProductionImage e1 = isProductionImage e2) := by
  refine ⟨fun r => rfl, ?_, ?_⟩
  · intro f r h
    cases f
    · cases r
      · simp [selectVersionCmd] at h
      · exact ⟨rfl, rfl⟩
    · simp only [selectVersionCmd, if_true, Option.some.injEq] at h
      exact absurd h (by decide)
  · intro e1 e2 h1 h2 hpo hpr
    simp [isProductionImage, selectVersionCmd, h1, h2, hpo, hpr]

/-- Both version files exist; the line extracted from the root file, were it
ever consulted, would differ. -/
def envC4a : ImageEnv :=
  ⟨true, true, true, fun c => if c == fssGwVersionCmd then "PROD" else "JUNK"⟩

/-- Only the preferred version file exists; its extracted line agrees with
`envC4a`. -/
def envC4b : ImageEnv := ⟨true, false, true, fun _ => "PROD"⟩

theorem versionFile_preference_witness :
    envC4a.fssGwVersionExists = true ∧ envC4b.fssGwVersionExists = true ∧
    envC4a.popenOk = envC4b.popenOk ∧
    envC4a.pipeRead fssGwVersionCmd = envC4b.pipeRead fssGwVersionCmd ∧
    isProductionImage envC4a = isProductionImage envC4b :=
  ⟨rfl, rfl, rfl, by decide,
    versionFile_preference.2.2 envC4a envC4b rfl rfl rfl (by decide)⟩

/-- **C5.** If neither `/fss/gw/version.txt` nor `/version.txt` exists,
`isProductionImage` returns `TRUE` (fail-safe production default). -/
theorem isProductionImage_no_version_file (env : ImageEnv)
    (h1 : env.fssGwVersionExists = false) (h2 : env.rootVersionExists = false) :
    isProductionImage env = true := by
  simp [isProductionImage, selectVersionCmd, h1, h2]

/-- No version file exists at all. -/
def envC5 : ImageEnv := ⟨false, false, true, fun _ => "DEV"⟩

theorem isProductionImage_no_version_file_witness :
    envC5.fssGwVersionExists = false ∧ envC5.rootVersionExists = false ∧
      isProductionImage envC5 = true :=
  ⟨rfl, rfl, isProductionImage_no_version_file envC5 rfl rfl⟩

/-- **C6.** When `popen` fails, each prober takes its conservative branch:
`isProductionImage` returns `TRUE` (production) and `validXConfResponse`
returns `FALSE` (invalid). -/
theorem popen_failure_defaults (env : ImageEnv) (xenv : XconfEnv)
    (hver : env.fssGwVersionExists = true ∨ env.rootVersionExists = true)
    (hpo : env.popenOk = false)
    (hresp : xenv.responseExists = true) (hxpo : xenv.popenOk = false) :
    isProductionImage env = true ∧ validXConfResponse xenv = false := by
  constructor
  · rcases hver with h | h
    · simp [isProductionImage, selectVersionCmd, h, hpo]
    · cases hfss : env.fssGwVersionExists
      · simp [isProductionImage, selectVersionCmd, hfss, h, hpo]
      · simp [isProductionImage, selectVersionCmd, hfss, hpo]
  · simp [validXConfResponse, hresp, hxpo]

/-- Version file present but the pipeline cannot be opened. -/
def envC6img : ImageEnv := ⟨true, false, false, fun _ => "PROD"⟩

/-- Response file present but the pipeline cannot be opened. -/
def envC6x : XconfEnv := ⟨true, false, "firmware.bin"⟩

theorem popen_failure_defaults_witness :
    envC6img.popenOk = false ∧ envC6x.popenOk = false ∧
      (isProductionImage envC6img = true ∧ validXConfResponse envC6x = false) :=
  ⟨rfl, rfl, popen_failure_defaults envC6img envC6x (Or.inl rfl) rfl rfl rfl⟩

/-- **C9.** When a version file exists and the pipeline runs, the image is
classified production exactly when the extracted line equals the literal
`"PROD"`, for every possible extracted line — in particular a line with a
trailing newline is not `"PROD"` and is classified debug/other. -/
theorem prodToken_exact_match (env : ImageEnv)
    (hver : env.fssGwVersionExists = true ∨ env.rootVersionExists = true)
    (hpo : env.popenOk = true) :
    ∃ cmd, selectVersionCmd env.fssGwVersionExists env.rootVersionExists = some cmd ∧
      (isProductionImage env = true ↔ env.pipeRead cmd = "PROD") := by
  have key : ∀ buf : String, (!(buf == "") && (buf == "PROD")) = true ↔ buf = "PROD" := by
    intro buf
    simp only [Bool.and_eq_true, Bool.not_eq_true', beq_iff_eq, beq_eq_false_iff_ne]
    exact ⟨fun h => h.2, fun h => ⟨by simp [h], h⟩⟩
  cases hfss : env.fssGwVersionExists
  · rcases hver with h | h
    · exact absurd hfss (by simp [h])
    · refine ⟨rootVersionCmd, by simp [selectVersionCmd, hfss, h], ?_⟩
      rw [show isProductionImage env =
          (!(env.pipeRead rootVersionCmd == "") && (env.pipeRead rootVersionCmd == "PROD"))
          from by simp [isProductionImage, selectVersionCmd, hfss, h, hpo]]
      exact key _
  · refine ⟨fssGwVersionCmd, by simp [selectVersionCmd, hfss], ?_⟩
    rw [show isProductionImage env =
        (!(env.pipeRead fssGwVersionCmd == "") && (env.pipeRead fssGwVersionCmd == "PROD"))
        from by simp [isProductionImage, selectVersionCmd, hfss, hpo]]
    exact key _

/-- The extracted line carries a trailing newline, as a raw `fgets` buffer
would: the comparison with `"PROD"` fails and the image is classified
debug/other. -/
def envC9 : ImageEnv := ⟨true, false, true, fun _ => "PROD\n"⟩

theorem prodToken_exact_match_witness :
    envC9.popenOk = true ∧
    (∃ cmd, selectVersionCmd envC9.fssGwVersionExists envC9.rootVersionExists = some cmd ∧
      (isProductionImage envC9 = true ↔ envC9.pipeRead cmd = "PROD")) ∧
    isProductionImage envC9 = false :=
  ⟨rfl, prodToken_exact_match envC9 (Or.inl rfl) rfl, by decide⟩

theorem checkXconfValid_of_invalid (d p : Bool) (h : d = true ∨ p = true) :
    checkXconfValid d p false = false := by
  cases d <;> cases p <;> simp_all [checkXconfValid]

theorem checkXconfValid_of_valid (d p : Bool) : checkXconfValid d p true = true := by
  revert d p; decide

theorem pollLoop_succ (d p : Bool) (env : RunEnv) (fuel k : Nat) :
    pollLoop d p env (fuel + 1) k =
      (if checkXconfValid d p (validXConfResponse (env.xconfAt k)) then
        some (true, [HalEvent.sleepFor sampleInterval])
      else if fscDeadline ≤ env.elapsedAt k then
        some (false, [HalEvent.sleepFor sampleInterval])
      else
        match pollLoop d p env fuel (k + 1) with
        | none => none
        | some (v, rest) => some (v, HalEvent.sleepFor sampleInterval :: rest)) := by
  rfl

theorem pollLoop_never_valid (d p : Bool) (env : RunEnv)
    (hdp : d = true ∨ p = true)
    (hnever : ∀ k, validXConfResponse (env.xconfAt k) = false) :
    ∀ fuel j N : Nat, j ≤ N →
      (3300 : ℚ) ≤ env.elapsedAt N →
      (∀ k, j ≤ k → k < N → env.elapsedAt k < 3300) →
      N - j < fuel →
      pollLoop d p env fuel j =
        some (false, List.replicate (N - j + 1) (HalEvent.sleepFor sampleInterval)) := by
  intro fuel
  induction fuel with
  | zero => intro j N _ _ _ hf; omega
  | succ f ih =>
    intro j N hjN hN hbefore hf
    have hval : checkXconfValid d p (validXConfResponse (env.xconfAt j)) = false := by
      rw [hnever j]; exact checkXconfValid_of_invalid d p hdp
    rw [pollLoop_succ, hval]
    by_cases hdl : fscDeadline ≤ env.elapsedAt j
    · have hjeq : j = N := by
        by_contra hne
        have hjlt : j < N := lt_of_le_of_ne hjN hne
        have hlt := hbefore j le_rfl hjlt
        rw [fscDeadline_eq] at hdl
        linarith
      have harith : N - j + 1 = 1 := by omega
      rw [harith]
      simp [hdl]
    · have hjne : j ≠ N := by
        intro he; subst he
        rw [fscDeadline_eq] at hdl
        exact hdl hN
      have hjlt : j < N := lt_of_le_of_ne hjN hjne
      have hrec := ih (j + 1) N hjlt hN
        (fun k hk1 hk2 => hbefore k (by omega) hk2) (by omega)
      have harith : N - j + 1 = (N - (j + 1) + 1) + 1 := by omega
      rw [harith, List.replicate_succ]
      simp [hdl, hrec]

/-- **C3.** If polling is required and no valid remote response ever
appears, the run terminates with verdict `false` on the first iteration
whose elapsed time has reached `3300` seconds (`3600 − 300`, not `3600`),
having slept exactly that many times, and reports `valid = false`. -/
theorem runMain_timeout (env : RunEnv) (fuel N : Nat)
    (hpoll : env.debugFileExists = true ∨ isProductionImage env.imgEnv = true)
    (hnever : ∀ k, validXConfResponse (env.xconfAt k) = false)
    (hN1 : 1 ≤ N)
    (hNhit : (3300 : ℚ) ≤ env.elapsedAt N)
    (hbefore : ∀ k, 1 ≤ k → k < N → env.elapsedAt k < 3300)
    (hfuel : N ≤ fuel) :
    runMain env fuel =
      some ⟨false, HalEvent.setTimeout 3600 ::
        (List.replicate N (HalEvent.sleepFor 30) ++ [HalEvent.setValid false])⟩ := by
  have hloop := pollLoop_never_valid env.debugFileExists (isProductionImage env.imgEnv)
    env hpoll hnever fuel 1 N hN1 hNhit hbefore (by omega)
  have harith : N - 1 + 1 = N := by omega
  rw [harith] at hloop
  have hcond : (!env.debugFileExists && !(isProductionImage env.imgEnv)) = false := by
    rcases hpoll with h | h <;> simp [h]
  simp [runMain, hcond, hloop, FSC_TIMEOUT_VALUE, sampleInterval]

/-- Debug override set, debug image, XConf never responds; the deadline is
first reached on the second loop iteration. -/
def envC3 : RunEnv where
  debugFileExists := true
  imgEnv := ⟨true, false, true, fun _ => "DEV"⟩
  xconfAt := fun _ => ⟨false, true, ""⟩
  elapsedAt := fun k => if k < 2 then 30 else 3330

theorem runMain_timeout_witness :
    (3300 : ℚ) ≤ envC3.elapsedAt 2 ∧
    runMain envC3 2 =
      some ⟨false, HalEvent.setTimeout 3600 ::
        (List.replicate 2 (HalEvent.sleepFor 30) ++ [HalEvent.setValid false])⟩ :=
  ⟨by norm_num [envC3],
    runMain_timeout envC3 2 2 (Or.inl rfl) (fun _ => rfl) (by norm_num)
      (by norm_num [envC3])
      (fun k h1 h2 => by
        have hk : k = 1 := by omega
        subst hk
        norm_num [envC3])
      le_rfl⟩

theorem pollLoop_first_valid (d p : Bool) (env : RunEnv) :
    ∀ fuel j N : Nat, j ≤ N →
      (∀ k, j ≤ k → k < N →
        checkXconfValid d p (validXConfResponse (env.xconfAt k)) = false ∧
        env.elapsedAt k < 3300) →
      checkXconfValid d p (validXConfResponse (env.xconfAt N)) = true →
      N - j < fuel →
      pollLoop d p env fuel j =
        some (true, List.replicate (N - j + 1) (HalEvent.sleepFor sampleInterval)) := by
  intro fuel
  induction fuel with
  | zero => intro j N _ _ _ hf; omega
  | succ f ih =>
    intro j N hjN hbefore hN hf
    rw [pollLoop_succ]
    by_cases hjeq : j = N
    · subst hjeq
      rw [hN]
      have harith : j - j + 1 = 1 := by omega
      rw [harith]
      simp
    · have hjlt : j < N := lt_of_le_of_ne hjN hjeq
      obtain ⟨hval, hlt⟩ := hbefore j le_rfl hjlt
      have hdl : ¬ fscDeadline ≤ env.elapsedAt j := by
        rw [fscDeadline_eq]
        exact not_le.mpr hlt
      have hrec := ih (j + 1) N hjlt
        (fun k hk1 hk2 => hbefore k (by omega) hk2) hN (by omega)
      have harith : N - j + 1 = (N - (j + 1) + 1) + 1 := by omega
      rw [hval, harith, List.replicate_succ]
      simp [hdl, hrec]

/-- **C10.** The success check precedes the deadline check: if the remote
response first becomes valid on an iteration whose elapsed time already
meets or exceeds the `3300`-second deadline, the loop still exits with
verdict `true` and `valid = true` is reported, never timeout failure. -/
theorem runMain_success_beats_deadline (env : RunEnv) (fuel N : Nat)
    (hpoll : env.debugFileExists = true ∨ isProductionImage env.imgEnv = true)
    (hN1 : 1 ≤ N)
    (hbefore : ∀ k, 1 ≤ k → k < N →
      validXConfResponse (env.xconfAt k) = false ∧ env.elapsedAt k < 3300)
    (hvalidN : validXConfResponse (env.xconfAt N) = true)
    (_hlate : (3300 : ℚ) ≤ env.elapsedAt N)
    (hfuel : N ≤ fuel) :
    runMain env fuel =
      some ⟨true, HalEvent.setTimeout 3600 ::
        (List.replicate N (HalEvent.sleepFor 30) ++ [HalEvent.setValid true])⟩ := by
  have hloop := pollLoop_first_valid env.debugFileExists (isProductionImage env.imgEnv)
    env fuel 1 N hN1
    (fun k hk1 hk2 => by
      obtain ⟨hv, hlt⟩ := hbefore k hk1 hk2
      exact ⟨by rw [hv]; exact checkXconfValid_of_invalid _ _ hpoll, hlt⟩)
    (by rw [hvalidN]; exact checkXconfValid_of_valid _ _) (by omega)
  have harith : N - 1 + 1 = N := by omega
  rw [harith] at hloop
  have hcond : (!env.debugFileExists && !(isProductionImage env.imgEnv)) = false := by
    rcases hpoll with h | h <;> simp [h]
  simp [runMain, hcond, hloop, FSC_TIMEOUT_VALUE, sampleInterval]

/-- Debug override set; the XConf response is already valid on the first
iteration, but by then the elapsed time (5000 s) is far past the deadline. -/
def envC10 : RunEnv where
  debugFileExists := true
  imgEnv := ⟨false, false, true, fun _ => ""⟩
  xconfAt := fun _ => ⟨true, true, "firmware_XYZ.bin"⟩
  elapsedAt := fun _ => 5000

theorem runMain_success_beats_deadline_witness :
    (3300 : ℚ) ≤ envC10.elapsedAt 1 ∧
    runMain envC10 1 =
      some ⟨true, HalEvent.setTimeout 3600 ::
        (List.replicate 1 (HalEvent.sleepFor 30) ++ [HalEvent.setValid true])⟩ :=
  ⟨by norm_num [envC10],
    runMain_success_beats_deadline envC10 1 1 (Or.inl rfl) le_rfl
      (fun k h1 h2 => absurd (lt_of_le_of_lt h1 h2) (lt_irrefl 1))
      (by decide) (by norm_num [envC10]) le_rfl⟩

theorem pollLoop_events_are_sleeps (d p : Bool) (env : RunEnv) :
    ∀ fuel k v evs, pollLoop d p env fuel k = some (v, evs) →
      ∀ e ∈ evs, e = HalEvent.sleepFor sampleInterval := by
  intro fuel
  induction fuel with
  | zero => intro k v evs h; simp [pollLoop] at h
  | succ f ih =>
    intro k v evs h e he
    rw [pollLoop_succ] at h
    split at h
    · simp only [Option.some.injEq, Prod.mk.injEq] at h
      rw [← h.2] at he
      simpa using he
    · split at h
      · simp only [Option.some.injEq, Prod.mk.injEq] at h
        rw [← h.2] at he
        simpa using he
      · split at h
        · exact absurd h (by simp)
        · rename_i v' rest heq
          simp only [Option.some.injEq, Prod.mk.injEq] at h
          rw [← h.2] at he
          rcases List.mem_cons.mp he with he | he
          · exact he
          · exact ih (k + 1) v' rest heq e he

theorem filter_eq_nil_of_sleeps (q : HalEvent → Bool) (evs : List HalEvent)
    (hs : ∀ e ∈ evs, e = HalEvent.sleepFor sampleInterval)
    (hq : q (HalEvent.sleepFor sampleInterval) = false) :
    evs.filter q = [] := by
  induction evs with
  | nil => rfl
  | cons a l ih =>
    have ha : a = HalEvent.sleepFor sampleInterval := hs a (List.mem_cons_self a l)
    rw [List.filter_cons, ha, hq]
    simp only [Bool.false_eq_true, if_false]
    exact ih (fun e he => hs e (List.mem_cons_of_mem a he))

/-- **C7.** In every terminating run the
`platform_hal_SetDeviceCodeImageTimeout` call appears exactly once in the
event trace, with argument `3600`, and it is the very first event — before
any polling `sleep`. -/
theorem setTimeout_once (env : RunEnv) (fuel : Nat) (r : MainResult)
    (h : runMain env fuel = some r) :
    r.events.filter HalEvent.isSetTimeout = [HalEvent.setTimeout 3600] ∧
    r.events.head? = some (HalEvent.setTimeout 3600) := by
  unfold runMain at h
  dsimp only at h
  split at h
  · simp only [Option.some.injEq] at h
    rw [← h]
    decide
  · split at h
    · exact absurd h (by simp)
    · rename_i v evs heq
      simp only [Option.some.injEq] at h
      rw [← h]
      have hs := pollLoop_events_are_sleeps env.debugFileExists
        (isProductionImage env.imgEnv) env fuel 1 v evs heq
      have hfil : evs.filter HalEvent.isSetTimeout = [] :=
        filter_eq_nil_of_sleeps _ evs hs rfl
      constructor
      · simp [List.filter_append, hfil, HalEvent.isSetTimeout, FSC_TIMEOUT_VALUE]
      · simp [FSC_TIMEOUT_VALUE]

/-- Debug override set; XConf responds validly on the first iteration. -/
def envC7 : RunEnv where
  debugFileExists := true
  imgEnv := ⟨false, false, true, fun _ => ""⟩
  xconfAt := fun _ => ⟨true, true, "firmware_ABC.bin"⟩
  elapsedAt := fun _ => 30

theorem setTimeout_once_witness :
    runMain envC7 1 =
      some ⟨true, [HalEvent.setTimeout 3600, HalEvent.sleepFor 30,
        HalEvent.setValid true]⟩ ∧
    ([HalEvent.setTimeout 3600, HalEvent.sleepFor 30,
        HalEvent.setValid true] : List HalEvent).filter HalEvent.isSetTimeout =
      [HalEvent.setTimeout 3600] :=
  ⟨by decide,
    (setTimeout_once envC7 1
      ⟨true, [HalEvent.setTimeout 3600, HalEvent.sleepFor 30, HalEvent.setValid true]⟩
      (by decide)).1⟩

/-- **C8.** In every terminating run the
`platform_hal_SetDeviceCodeImageValid` call appears exactly once in the
event trace, its argument equals the final verdict, and it is the very last
event — after the poll loop has terminated. -/
theorem setValid_once_final (env : RunEnv) (fuel : Nat) (r : MainResult)
    (h : runMain env fuel = some r) :
    r.events.filter HalEvent.isSetValid = [HalEvent.setValid r.bValidImage] ∧
    r.events.getLast? = some (HalEvent.setValid r.bValidImage) := by
  unfold runMain at h
  dsimp only at h
  split at h
  · simp only [Option.some.injEq] at h
    rw [← h]
    decide
  · split at h
    · exact absurd h (by simp)
    · rename_i v evs heq
      simp only [Option.some.injEq] at h
      rw [← h]
      have hs := pollLoop_events_are_sleeps env.debugFileExists
        (isProductionImage env.imgEnv) env fuel 1 v evs heq
      have hfil : evs.filter HalEvent.isSetValid = [] :=
        filter_eq_nil_of_sleeps _ evs hs rfl
      constructor
      · simp [List.filter_append, hfil, HalEvent.isSetValid]
      · rw [show [HalEvent.setTimeout FSC_TIMEOUT_VALUE] ++ evs ++ [HalEvent.setValid v] =
            ([HalEvent.setTimeout FSC_TIMEOUT_VALUE] ++ evs) ++ [HalEvent.setValid v]
            from by simp]
        exact List.getLast?_concat _

/-- Debug override set, XConf never responds, and the deadline has already
passed on the first iteration: the run times out at once. -/
def envC8 : RunEnv where
  debugFileExists := true
  imgEnv := ⟨false, false, true, fun _ => ""⟩
  xconfAt := fun _ => ⟨false, true, ""⟩
  elapsedAt := fun _ => 4000

theorem setValid_once_final_witness :
    runMain envC8 1 =
      some ⟨false, [HalEvent.setTimeout 3600, HalEvent.sleepFor 30,
        HalEvent.setValid false]⟩ ∧
    ([HalEvent.setTimeout 3600, HalEvent.sleepFor 30,
        HalEvent.setValid false] : List HalEvent).filter HalEvent.isSetValid =
      [HalEvent.setValid false] :=
  ⟨by decide,
    (setValid_once_final envC8 1
      ⟨false, [HalEvent.setTimeout 3600, HalEvent.sleepFor 30, HalEvent.setValid false]⟩
      (by decide)).1⟩

end FscMonitor
